import Mathlib

/-!
Shallow embedding of the newdns authoritative DNS server library
(zone.go, set.go, server.go) and proofs about its specification.

Go machine integers are modelled as `Nat` (durations are nanosecond
counts, as in Go's `time.Duration`; wire TTLs are second counts).
Record types are wire-format numbers (Go: `type Type uint16`).
Strings are Lean `String`s, manipulated through structural functions
on their character lists so that every definition evaluates by kernel
reduction.  Code of the repository that is not part of the three
source files (record validation, the name utilities, set conversion,
the lookup engine) is either modelled from the specification (marked
in the doc comment) or passed as an explicit callback parameter,
exactly where the source itself consumes it through a callback.
-/

namespace NewDNS

/-- Wire numbers for DNS record types (Go: type Type uint16). -/
abbrev Ty := Nat

def typeA : Ty := 1

def typeNS : Ty := 2

def typeCNAME : Ty := 5

def typeSOA : Ty := 6

def typePTR : Ty := 12

def typeMX : Ty := 15

def typeTXT : Ty := 16

def typeAAAA : Ty := 28

def typeANY : Ty := 255

/-- One nanosecond-count per second (Go: time.Second). -/
def timeSecond : Nat := 1000000000

/-- Go: time.Minute. -/
def timeMinute : Nat := 60 * timeSecond

/-- Go: time.Hour. -/
def timeHour : Nat := 3600 * timeSecond

/-! ### Character and string utilities

Structural replacements for the Go standard string functions used by
the sources, working on the character list of a `String`. -/

/-- ASCII lower-casing of one character (Go: strings.ToLower acts
per character; only ASCII matters for DNS names). -/
def lowerChar (c : Char) : Char :=
  if 65 ≤ c.toNat ∧ c.toNat ≤ 90 then Char.ofNat (c.toNat + 32) else c

/-- Lower-casing of a string (Go: strings.ToLower). -/
def lowerStr (s : String) : String :=
  String.mk (s.data.map lowerChar)

/-- Splitting a character list at every occurrence of a separator
(Go: strings.Split); the result is never empty. -/
def splitChar (sep : Char) : List Char → List (List Char)
  | [] => [[]]
  | c :: cs =>
    if c = sep then [] :: splitChar sep cs
    else
      match splitChar sep cs with
      | [] => [[c]]
      | l :: ls => (c :: l) :: ls

/-- Byte-order comparison of strings as Go performs it; UTF-8 byte
order coincides with code-point order, so characters are compared by
code point. -/
def strLtb : List Char → List Char → Bool
  | [], [] => false
  | [], _ :: _ => true
  | _ :: _, [] => false
  | a :: as, b :: bs =>
    if a.toNat < b.toNat then true
    else if b.toNat < a.toNat then false
    else strLtb as bs

/-- Go string comparison s < t. -/
def strLt (s t : String) : Bool :=
  strLtb s.data t.data

/-- Decides whether small is a suffix of big. -/
def isSuffix (small big : List (List Char)) : Bool :=
  small = big.drop (big.length - small.length)

/-- Numeric value of a decimal digit list (most significant first). -/
def digitsVal : List Char → Nat → Nat
  | [], acc => acc
  | c :: cs, acc => digitsVal cs (acc * 10 + (c.toNat - 48))

/-- ASCII decimal digit test. -/
def isDigitChar (c : Char) : Bool :=
  48 ≤ c.toNat ∧ c.toNat ≤ 57

/-- ASCII hexadecimal digit test. -/
def isHexChar (c : Char) : Bool :=
  isDigitChar c || (97 ≤ c.toNat ∧ c.toNat ≤ 102) || (65 ≤ c.toNat ∧ c.toNat ≤ 70)

/-! ### Name utilities -/

/-- Modelled from the spec: the miekg/dns predicate IsFqdn used by
Zone.Validate; an FQDN terminates with the root label separator. -/
def IsFqdn (s : String) : Bool :=
  match s.data.getLast? with
  | some c => c = '.'
  | none => false

/-- Modelled from the spec: IsDomain (the name utilities are absent
from the sources): the string parses as a DNS name with at most 253
octets, each label 1 to 63 octets, and, when fqdn is requested, it
terminates with the root separator. -/
def IsDomain (s : String) (fqdn : Bool) : Bool :=
  if fqdn then
    IsFqdn s && s.data.length ≤ 254 &&
      (splitChar '.' s.data.dropLast).all (fun l => 1 ≤ l.length && l.length ≤ 63)
  else
    s.data.length ≤ 253 &&
      (splitChar '.' s.data).all (fun l => 1 ≤ l.length && l.length ≤ 63)

/-- Modelled from the spec: zone membership (the name utilities are
absent from the sources): name equals the zone or is a subdomain of
it, labels compared case-insensitively. -/
def InZone (zone name : String) : Bool :=
  isSuffix (splitChar '.' (zone.data.map lowerChar))
    (splitChar '.' (name.data.map lowerChar))

/-- Modelled from the spec: transferCase (the name utilities are
absent from the sources): when the canonical name is, ignoring case,
a suffix of the query name, the corresponding suffix of the query
name is returned, preserving the case supplied by the client;
otherwise the canonical name is returned unchanged. -/
def transferCase (query canonical : String) : String :=
  let lq := query.data.map lowerChar
  let lc := canonical.data.map lowerChar
  if lc = lq.drop (lq.length - lc.length) then
    String.mk (query.data.drop (query.data.length - canonical.data.length))
  else canonical

/-- Escaping of dots in the local part of a mailbox per RFC 1035. -/
def escapeDots : List Char → List Char
  | [] => []
  | c :: cs => if c = '.' then '\\' :: '.' :: escapeDots cs else c :: escapeDots cs

/-- Modelled from the spec: emailToDomain (the name utilities are
absent from the sources): transforms local@domain into the DNS
mailbox form local.domain, escaping dots in the local part; strings
that are not of that shape are returned unchanged. -/
def emailToDomain (email : String) : String :=
  match splitChar '@' email.data with
  | [lp, dom] => String.mk (escapeDots lp ++ '.' :: dom)
  | _ => email

/-- Modelled from the spec: a valid IPv4 literal (record validation is
absent from the sources): four dot-separated decimal octets. -/
def isIPv4 (s : String) : Bool :=
  match splitChar '.' s.data with
  | [a, b, c, d] =>
    [a, b, c, d].all fun p =>
      1 ≤ p.length && p.length ≤ 3 && p.all isDigitChar && digitsVal p 0 ≤ 255
  | _ => false

/-- Modelled from the spec: a valid IPv6 literal (record validation is
absent from the sources), in simplified form: colon-separated groups
of at most four hex digits. -/
def isIPv6 (s : String) : Bool :=
  s.data.contains ':' && s.data.all (fun c => isHexChar c || c == ':') &&
    (splitChar ':' s.data).all (fun g => g.length ≤ 4)

/-! ### Records and sets -/

/-- A single DNS record as provided by the zone handler (Go: Record). -/
structure Record where
  Address : String
  Priority : Nat
  Data : List String
deriving DecidableEq, Repr

/-- Modelled from the spec: per-type record validation (record.go is
absent from the sources). A: IPv4 literal; AAAA: IPv6 literal;
CNAME, NS, PTR: FQDN; MX: FQDN and priority at most 65535; TXT:
data non-empty with each chunk 1 to 255 octets; SOA is
server-synthesized, user records of other types are rejected. -/
def Record.Validate (r : Record) (t : Ty) : Option String :=
  if t == typeA then
    if isIPv4 r.Address then none else some "invalid IPv4 address"
  else if t == typeAAAA then
    if isIPv6 r.Address then none else some "invalid IPv6 address"
  else if t == typeCNAME || t == typeNS || t == typePTR then
    if IsDomain r.Address true then none else some "invalid domain address"
  else if t == typeMX then
    if IsDomain r.Address true && r.Priority ≤ 65535 then none
    else some "invalid MX record"
  else if t == typeTXT then
    if !r.Data.isEmpty && r.Data.all (fun d => 1 ≤ d.data.length && d.data.length ≤ 255) then
      none
    else some "invalid TXT data"
  else some "unsupported type"

/-- Modelled from the spec: the set of valid record type tags (type.go
is absent from the sources); SOA is rejected since it is synthesized
by the server. -/
def typeValid (t : Ty) : Bool :=
  t == typeA || t == typeNS || t == typeCNAME || t == typePTR ||
    t == typeMX || t == typeTXT || t == typeAAAA

/-- Zero-padding to five digits (Go: fmt.Sprintf of "%05d"). -/
def pad5 (n : Nat) : String :=
  let s := toString n
  String.mk (List.replicate (5 - s.data.length) '0') ++ s

/-- The comparison key of the sort in Set.Validate (set.go lines
58-74): TXT records compare by their first data chunk, MX records by
the zero-padded priority followed by the address, all other types by
address. -/
def sortKey (t : Ty) (r : Record) : String :=
  if t == typeTXT then r.Data.headD ""
  else if t == typeMX then pad5 r.Priority ++ " " ++ r.Address
  else r.Address

/-- The non-strict comparison corresponding to the less function of
the sort in Set.Validate: a precedes b when b is not strictly below
a. -/
def keyLe (t : Ty) (a b : Record) : Prop :=
  strLt (sortKey t b) (sortKey t a) = false

instance (t : Ty) : DecidableRel (keyLe t) := fun a b => by
  unfold keyLe
  infer_instance

/-- The sort performed by Set.Validate (Go: sort.Slice with the less
function of set.go lines 59-74), modelled as a stable insertion sort
with respect to the comparison key. -/
def sortRecords (t : Ty) (rs : List Record) : List Record :=
  rs.insertionSort (keyLe t)

/-- A set of records sharing name and type (Go: Set). The field ty is
the Go field Type, which is not a legal Lean field name. -/
structure Set where
  Name : String
  ty : Ty
  Records : List Record
  TTL : Nat
deriving DecidableEq, Repr

/-- The record-validation loop of Set.Validate (set.go lines 51-56),
returning the first error. -/
def firstRecordError (t : Ty) : List Record → Option String
  | [] => none
  | r :: rest =>
    match r.Validate t with
    | some e => some e
    | none => firstRecordError t rest

/-- Set.Validate (set.go lines 29-82). The Go method mutates the
receiver in place and returns an error; the embedding returns the
error (if any) together with the final state of the set. -/
def Set.Validate (s : Set) : Option String × Set :=
  if ¬ IsDomain s.Name true then (some "invalid name", s)
  else if ¬ typeValid s.ty then (some "invalid type", s)
  else if s.Records.isEmpty then (some "missing records", s)
  else if s.ty == typeCNAME && s.Records.length > 1 then
    (some "multiple CNAME records", s)
  else
    match firstRecordError s.ty s.Records with
    | some e => (some e, s)
    | none =>
      let s1 := { s with Records := sortRecords s.ty s.Records }
      let s2 := if s1.TTL == 0 then { s1 with TTL := 5 * timeMinute } else s1
      (none, s2)

/-! ### Zones -/

/-- An authoritative zone (Go: Zone). The user lookup callback (the
Handler field) is passed to the server embedding separately, as the
server consumes it. -/
structure Zone where
  Name : String
  MasterNameServer : String
  AllNameServers : List String
  AdminEmail : String
  Refresh : Nat
  Retry : Nat
  Expire : Nat
  SOATTL : Nat
  NSTTL : Nat
  MinTTL : Nat
deriving DecidableEq, Repr

/-- Zone.Validate (zone.go lines 63-127). The Go method mutates the
receiver in place; the embedding returns the error (if any) together
with the final state of the zone. The guard of the Retry default
tests Refresh, exactly as the source does at zone.go line 92. -/
def Zone.Validate (z : Zone) : Option String × Zone :=
  if ¬ IsFqdn z.Name then (some "name not fully qualified", z)
  else if ¬ IsFqdn z.MasterNameServer then (some "master server not full qualified", z)
  else if ¬ z.AllNameServers.all IsFqdn then
    (some "additional name server not fully qualified", z)
  else
    let z := if z.AdminEmail == "" then { z with AdminEmail := "hostmaster@" ++ z.Name } else z
    let z := if z.Refresh == 0 then { z with Refresh := 6 * timeHour } else z
    let z := if z.Refresh == 0 then { z with Retry := timeHour } else z
    let z := if z.Expire == 0 then { z with Expire := 72 * timeHour } else z
    let z := if z.SOATTL == 0 then { z with SOATTL := 15 * timeMinute } else z
    let z := if z.NSTTL == 0 then { z with NSTTL := 48 * timeHour } else z
    let z := if z.MinTTL == 0 then { z with MinTTL := 5 * timeMinute } else z
    if z.Retry ≥ z.Refresh then (some "retry must be less than refresh", z)
    else if z.Expire < z.Refresh + z.Retry then
      (some "expire must be bigger than the sum of refresh and retry", z)
    else (none, z)

/-! ### Messages and the server -/

def rcodeSuccess : Nat := 0

def rcodeServerFailure : Nat := 2

def rcodeNameError : Nat := 3

def rcodeNotImplemented : Nat := 4

def rcodeRefused : Nat := 5

def rcodeBadVers : Nat := 16

def classINET : Nat := 1

def opcodeQuery : Nat := 0

/-- Modelled from the spec: durationToTime (the helpers are absent
from the sources): a duration in nanoseconds becomes a wire TTL in
whole seconds, rounded up, truncated to 32 bits. -/
def durationToTime (d : Nat) : Nat :=
  ((d + (timeSecond - 1)) / timeSecond) % 4294967296

/-- The data of a resource record in a reply. -/
inductive RData where
  | a (addr : String)
  | aaaa (addr : String)
  | cname (target : String)
  | ptr (target : String)
  | mx (preference : Nat) (target : String)
  | txt (data : List String)
  | ns (target : String)
  | soa (mname rname : String) (serial refresh retry expire minttl : Nat)
deriving DecidableEq, Repr

/-- A resource record in a reply (Go: dns.RR with its header). -/
structure RR where
  Name : String
  Ttl : Nat
  Rdata : RData
deriving DecidableEq, Repr

/-- A DNS reply under assembly (the parts of Go's dns.Msg that the
server writes). -/
structure Msg where
  Rcode : Nat
  Authoritative : Bool
  Truncated : Bool
  Answer : List RR
  Ns : List RR
  Extra : List RR
  ednsUdpSize : Option Nat
deriving DecidableEq, Repr

/-- The question of a request (Go: dns.Question). -/
structure Question where
  Name : String
  Qtype : Nat
  Qclass : Nat
deriving DecidableEq, Repr

/-- The EDNS OPT data of a request, when present. -/
structure EdnsInfo where
  version : Nat
  udpSize : Nat
deriving DecidableEq, Repr

/-- An accepted request as the handler sees it. -/
structure Request where
  question : Question
  edns : Option EdnsInfo
deriving DecidableEq, Repr

/-- Modelled from the spec: Set.convert (set.go of the repository is
truncated before it): each record of the set becomes one resource
record carrying the given owner name; every record TTL is the set
TTL clamped from below by the zone minimum TTL. -/
def Set.convert (s : Set) (zone : Zone) (name : String) : List RR :=
  let ttl := max (durationToTime s.TTL) (durationToTime zone.MinTTL)
  s.Records.filterMap fun r =>
    if s.ty == typeA then some { Name := name, Ttl := ttl, Rdata := .a r.Address }
    else if s.ty == typeAAAA then some { Name := name, Ttl := ttl, Rdata := .aaaa r.Address }
    else if s.ty == typeCNAME then some { Name := name, Ttl := ttl, Rdata := .cname r.Address }
    else if s.ty == typePTR then some { Name := name, Ttl := ttl, Rdata := .ptr r.Address }
    else if s.ty == typeMX then
      some { Name := name, Ttl := ttl, Rdata := .mx r.Priority r.Address }
    else if s.ty == typeTXT then some { Name := name, Ttl := ttl, Rdata := .txt r.Data }
    else if s.ty == typeNS then some { Name := name, Ttl := ttl, Rdata := .ns r.Address }
    else none

/-- One result of the lookup engine (the lookup engine is not part of
the sources; the server consumes its results through this shape). -/
structure LookupResult where
  Set : Set
  Name : String
deriving DecidableEq, Repr

/-- The type of the lookup engine as a callback of the validated zone
(Go: zone.Lookup): a name and the requested types produce result
sets, the other-types flag, or an error. -/
abbrev LookupFn := Zone → String → List Ty → Except String (List LookupResult × Bool)

/-- The type of the zone resolution callback (Go: Config.Handler). -/
abbrev ZoneFn := String → Except String (Option Zone)

/-- The synthesized SOA record (server.go lines 257-271 and 313-327). -/
def soaRR (zone : Zone) : RR :=
  { Name := zone.Name, Ttl := durationToTime zone.SOATTL,
    Rdata := .soa zone.MasterNameServer (emailToDomain zone.AdminEmail) 1
      (durationToTime zone.Refresh) (durationToTime zone.Retry)
      (durationToTime zone.Expire) (durationToTime zone.MinTTL) }

/-- The NS records of a zone carrying a given owner name (server.go
lines 239-249, 274-284 and 292-302). -/
def nsRRs (zone : Zone) (name : String) : List RR :=
  zone.AllNameServers.map fun n =>
    { Name := name, Ttl := durationToTime zone.NSTTL, Rdata := .ns n }

/-- Server.writeError (server.go lines 361-365): the message is
written directly with the given response code; no truncation check
is performed on this path. -/
def writeError (rs : Msg) (code : Nat) : Msg :=
  { rs with Rcode := code }

/-- The buffer size negotiated in Server.writeMessage (server.go
lines 334-338): the EDNS UDP size of the request when an OPT record
is present, otherwise 512 octets. -/
def negotiatedBuffer (rq : Request) : Nat :=
  match rq.edns with
  | some e => e.udpSize
  | none => 512

/-- Server.writeMessage (server.go lines 333-359). The encoded length
of a message (Go: rs.Len(), part of the external wire codec) is an
explicit parameter. Over UDP, a message longer than the negotiated
buffer is emptied, marked truncated and written with the success
code; otherwise, and always over TCP, the message is written as it
stands. -/
def writeMessage (isUDP : Bool) (msgLen : Msg → Nat) (rq : Request) (rs : Msg) : Msg :=
  if isUDP && msgLen rs > negotiatedBuffer rq then
    writeError { rs with Truncated := true, Answer := [], Ns := [], Extra := [] } rcodeSuccess
  else rs

/-- Server.writeSOAResponse (server.go lines 255-288). -/
def writeSOAResponse (isUDP : Bool) (msgLen : Msg → Nat) (rq : Request) (rs : Msg)
    (zone : Zone) : Msg :=
  writeMessage isUDP msgLen rq
    { rs with Answer := rs.Answer ++ [soaRR zone], Ns := rs.Ns ++ nsRRs zone zone.Name }

/-- Server.writeNSResponse (server.go lines 290-306). -/
def writeNSResponse (isUDP : Bool) (msgLen : Msg → Nat) (rq : Request) (rs : Msg)
    (zone : Zone) : Msg :=
  writeMessage isUDP msgLen rq { rs with Answer := rs.Answer ++ nsRRs zone zone.Name }

/-- Server.writeErrorWithSOA (server.go lines 308-331). -/
def writeErrorWithSOA (isUDP : Bool) (msgLen : Msg → Nat) (rq : Request) (rs : Msg)
    (zone : Zone) (code : Nat) : Msg :=
  writeMessage isUDP msgLen rq { rs with Rcode := code, Ns := rs.Ns ++ [soaRR zone] }

/-- The MX glue loop of the handler (server.go lines 218-236): for
every MX answer whose target lies in the zone, the A and AAAA sets
of the target are looked up and appended to the additional section;
a lookup error aborts the loop. -/
def addGlue (lookup : LookupFn) (zone : Zone) (qname : String) :
    List RR → Msg → Msg × Bool
  | [], rs => (rs, false)
  | rr :: rest, rs =>
    match rr.Rdata with
    | .mx _ target =>
      if InZone zone.Name target then
        match lookup zone target [typeA, typeAAAA] with
        | .error _ => (rs, true)
        | .ok (result, _) =>
          addGlue lookup zone qname rest
            { rs with Extra := rs.Extra ++
                (result.map fun res => res.Set.convert zone (transferCase qname res.Name)).flatten }
      else addGlue lookup zone qname rest rs
    | _ => addGlue lookup zone qname rest rs

/-- The head message of every reply (server.go lines 104-113):
response bound to the request, compression on, authoritative set. -/
def initialReply : Msg :=
  { Rcode := 0, Authoritative := true, Truncated := false,
    Answer := [], Ns := [], Extra := [], ednsUdpSize := none }

/-- The part of Server.handler after the EDNS check (server.go lines
127-253). -/
def handlerMain (zoneHandler : ZoneFn) (lookup : LookupFn) (isUDP : Bool)
    (msgLen : Msg → Nat) (rq : Request) (rs : Msg) : Option Msg :=
  let question := rq.question
  if question.Qclass ≠ classINET then none
  else if question.Qtype == typeANY then some (writeError rs rcodeNotImplemented)
  else
    let name := lowerStr question.Name
    match zoneHandler name with
    | .error _ => some (writeError rs rcodeServerFailure)
    | .ok none => some (writeError { rs with Authoritative := false } rcodeRefused)
    | .ok (some zone) =>
      match Zone.Validate zone with
      | (some _, _) => some (writeError rs rcodeServerFailure)
      | (none, zone) =>
        if question.Qtype == typeSOA && name == zone.Name then
          some (writeSOAResponse isUDP msgLen rq rs zone)
        else if question.Qtype == typeNS && name == zone.Name then
          some (writeNSResponse isUDP msgLen rq rs zone)
        else if ¬ typeValid question.Qtype then
          some (writeErrorWithSOA isUDP msgLen rq rs zone rcodeNameError)
        else
          match lookup zone name [question.Qtype] with
          | .error _ => some (writeError rs rcodeServerFailure)
          | .ok (result, avl) =>
            if result.isEmpty then
              if avl then some (writeErrorWithSOA isUDP msgLen rq rs zone rcodeSuccess)
              else some (writeErrorWithSOA isUDP msgLen rq rs zone rcodeNameError)
            else
              let rs := { rs with Answer := rs.Answer ++
                (result.map fun res =>
                  res.Set.convert zone (transferCase question.Name res.Name)).flatten }
              match addGlue lookup zone question.Name rs.Answer rs with
              | (rs, true) => some (writeError rs rcodeServerFailure)
              | (rs, false) =>
                let authority := nsRRs zone (transferCase question.Name zone.Name)
                let rs := { rs with Ns := rs.Ns ++ authority }
                some (writeMessage isUDP msgLen rq rs)

/-- Server.handler (server.go lines 104-253). The zone resolution
callback, the lookup engine and the encoded message length are
explicit parameters; the result is the written reply, or none when
the connection is left hanging. -/
def Server.handler (bufferSize : Nat) (zoneHandler : ZoneFn) (lookup : LookupFn)
    (isUDP : Bool) (msgLen : Msg → Nat) (rq : Request) : Option Msg :=
  match rq.edns with
  | some e =>
    let rs := { initialReply with ednsUdpSize := some bufferSize }
    if e.version ≠ 0 then some (writeError rs rcodeBadVers)
    else handlerMain zoneHandler lookup isUDP msgLen rq rs
  | none => handlerMain zoneHandler lookup isUDP msgLen rq initialReply

/-- A raw DNS header as the accept filter sees it (Go: dns.Header). -/
structure Header where
  Bits : Nat
  Qdcount : Nat
deriving DecidableEq, Repr

/-- The two accept filter outcomes (Go: dns.MsgAcceptAction). -/
inductive MsgAcceptAction where
  | msgAccept
  | msgIgnore
deriving DecidableEq, Repr

/-- Server.accept (server.go lines 85-102). -/
def Server.accept (dh : Header) : MsgAcceptAction :=
  if dh.Bits &&& (1 <<< 15) ≠ 0 then .msgIgnore
  else if (dh.Bits >>> 11) &&& 0xF ≠ opcodeQuery then .msgIgnore
  else if dh.Qdcount ≠ 1 then .msgIgnore
  else .msgAccept

/-! ### Header field views

The accept filter reads raw header bits; these definitions name the
DNS header fields it inspects. -/

/-- The QR bit of a DNS header: bit 15 of the flags word is set on
responses. -/
def Header.response (dh : Header) : Prop :=
  dh.Bits / 2 ^ 15 % 2 = 1

instance (dh : Header) : Decidable dh.response := by
  unfold Header.response
  infer_instance

/-- The opcode field of a DNS header: bits 11 to 14 of the flags
word. -/
def Header.opcode (dh : Header) : Nat :=
  dh.Bits / 2 ^ 11 % 2 ^ 4

/-! ### Concrete fixtures used by witnesses and counterexamples -/

/-- A zone relying on every documented default; in particular Retry
is unset. -/
def zoneRetryZero : Zone :=
  { Name := "example.com.", MasterNameServer := "ns1.example.com.",
    AllNameServers := ["ns1.example.com."], AdminEmail := "",
    Refresh := 0, Retry := 0, Expire := 0, SOATTL := 0, NSTTL := 0, MinTTL := 0 }

/-- A zone with an empty name server list. -/
def zoneNoNS : Zone :=
  { Name := "example.com.", MasterNameServer := "ns1.example.com.",
    AllNameServers := [], AdminEmail := "",
    Refresh := 0, Retry := 0, Expire := 0, SOATTL := 0, NSTTL := 0, MinTTL := 0 }

/-- A zone with a name server that is not fully qualified. -/
def zoneBadNS : Zone :=
  { Name := "example.com.", MasterNameServer := "ns1.example.com.",
    AllNameServers := ["ns1"], AdminEmail := "",
    Refresh := 0, Retry := 0, Expire := 0, SOATTL := 0, NSTTL := 0, MinTTL := 0 }

/-- A set without records. -/
def setNoRecords : Set :=
  { Name := "example.com.", ty := typeA, Records := [], TTL := 0 }

/-- A one-record answer used in write fixtures. -/
def rrW : RR :=
  { Name := "example.com.", Ttl := 300, Rdata := .a "1.2.3.4" }

/-- A plain A question without EDNS. -/
def rqW : Request :=
  { question := { Name := "example.com.", Qtype := typeA, Qclass := classINET },
    edns := none }

/-- A non-empty reply carrying the name error code. -/
def rsW : Msg :=
  { Rcode := rcodeNameError, Authoritative := true, Truncated := false,
    Answer := [rrW], Ns := [], Extra := [], ednsUdpSize := none }

/-- An A question below the apex of the example zone, without EDNS. -/
def rq5 : Request :=
  { question := { Name := "www.example.com.", Qtype := typeA, Qclass := classINET },
    edns := none }

/-- A TXT set whose two records share their sort key. -/
def txtSetA : Set :=
  { Name := "txt.example.com.", ty := typeTXT,
    Records := [ { Address := "", Priority := 0, Data := ["a", "x"] },
                 { Address := "", Priority := 0, Data := ["a", "y"] } ],
    TTL := 0 }

/-- The records of txtSetA in the other order. -/
def txtSetB : Set :=
  { Name := "txt.example.com.", ty := typeTXT,
    Records := [ { Address := "", Priority := 0, Data := ["a", "y"] },
                 { Address := "", Priority := 0, Data := ["a", "x"] } ],
    TTL := 0 }

/-- A TXT set whose two records have distinct sort keys. -/
def txtSetC : Set :=
  { Name := "txt.example.com.", ty := typeTXT,
    Records := [ { Address := "", Priority := 0, Data := ["a"] },
                 { Address := "", Priority := 0, Data := ["b"] } ],
    TTL := 0 }

/-- The records of txtSetC in the other order. -/
def txtSetD : Set :=
  { Name := "txt.example.com.", ty := typeTXT,
    Records := [ { Address := "", Priority := 0, Data := ["b"] },
                 { Address := "", Priority := 0, Data := ["a"] } ],
    TTL := 0 }


/-- A valid zone whose NS TTL is below its minimum TTL. -/
def zoneLowNSTTL : Zone :=
  { Name := "example.com.", MasterNameServer := "ns1.example.com.",
    AllNameServers := ["ns1.example.com."], AdminEmail := "hostmaster@example.com.",
    Refresh := 6 * timeHour, Retry := timeHour, Expire := 72 * timeHour,
    SOATTL := 15 * timeMinute, NSTTL := timeMinute, MinTTL := 5 * timeMinute }

/-- A one-record A set below the apex of the example zone. -/
def aSetW : Set :=
  { Name := "www.example.com.", ty := typeA,
    Records := [ { Address := "1.2.3.4", Priority := 0, Data := [] } ],
    TTL := 5 * timeMinute }

/-- A lookup engine resolving every query to the A set above. -/
def lookupW : LookupFn := fun _ _ _ =>
  .ok ([ { Set := aSetW, Name := "www.example.com." } ], true)

/-- The NS record of the reply below. -/
def nsRecW : RR :=
  { Name := "example.com.", Ttl := 60, Rdata := .ns "ns1.example.com." }

/-- The reply the handler assembles for rq5 against zoneLowNSTTL. -/
def msgW : Msg :=
  { Rcode := 0, Authoritative := true, Truncated := false,
    Answer := [ { Name := "www.example.com.", Ttl := 300, Rdata := .a "1.2.3.4" } ],
    Ns := [ { Name := "example.com.", Ttl := 60, Rdata := .ns "ns1.example.com." } ],
    Extra := [], ednsUdpSize := none }

/-! ### Theorems -/

/-- C7: the accept filter rejects, producing no reply, exactly those
messages that have the response bit set, an opcode other than QUERY,
or a question count different from one; every other message is
accepted. -/
theorem accept_rejects_exactly (dh : Header) :
    (Server.accept dh = .msgIgnore ↔
      (dh.response ∨ dh.opcode ≠ opcodeQuery ∨ dh.Qdcount ≠ 1)) ∧
    (Server.accept dh = .msgAccept ↔
      (¬ dh.response ∧ dh.opcode = opcodeQuery ∧ dh.Qdcount = 1)) := by
  have hshift : dh.Bits >>> 11 &&& 0xF = dh.opcode := by
    have h15 : (0xF : Nat) = 2 ^ 4 - 1 := by norm_num
    rw [Nat.shiftRight_eq_div_pow, h15, Nat.and_pow_two_sub_one_eq_mod]
    rfl
  have hqr : (dh.Bits &&& 1 <<< 15 ≠ 0) ↔ dh.response := by
    have h2 : (1 <<< 15 : Nat) = 2 ^ 15 := by decide
    rw [h2, Nat.and_two_pow, Nat.testBit_to_div_mod]
    unfold Header.response
    by_cases h : dh.Bits / 2 ^ 15 % 2 = 1 <;> simp [h]
  have main : Server.accept dh = .msgAccept ↔
      (¬ dh.response ∧ dh.opcode = opcodeQuery ∧ dh.Qdcount = 1) := by
    unfold Server.accept
    rw [hshift] at *
    split_ifs with h1 h2 h3
    · simp only [hqr] at h1
      simp [h1]
    · simp [h2]
    · simp [h3]
    · simp only [hqr] at h1
      simp [h1, not_not.mp h2, not_not.mp h3]
  have htwo : Server.accept dh = .msgIgnore ↔ ¬ Server.accept dh = .msgAccept := by
    cases h : Server.accept dh <;> simp
  refine ⟨?_, main⟩
  rw [htwo, main]
  tauto

/-- C4: a reply written over UDP whose encoded length exceeds the
negotiated buffer (the EDNS OPT UDP size when the request carries an
OPT record, otherwise 512 octets) is written with the answer,
authority and additional sections cleared and the truncated flag
set; a reply written over TCP is always written unchanged. -/
theorem writeMessage_truncates (msgLen : Msg → Nat) (rq : Request) (rs : Msg) :
    (negotiatedBuffer rq < msgLen rs →
      writeMessage true msgLen rq rs =
        { rs with Truncated := true, Answer := [], Ns := [], Extra := [],
                  Rcode := rcodeSuccess }) ∧
    writeMessage false msgLen rq rs = rs := by
  constructor
  · intro h
    unfold writeMessage writeError
    simp [h]
  · unfold writeMessage
    simp

/-- Witness for C4 at a concrete oversized UDP reply and over TCP. -/
theorem writeMessage_truncates_witness :
    writeMessage true (fun _ => 600) rqW rsW =
      { rsW with Truncated := true, Answer := [], Ns := [], Extra := [],
                 Rcode := rcodeSuccess } ∧
    writeMessage false (fun _ => 600) rqW rsW = rsW := by
  have h := writeMessage_truncates (fun _ => 600) rqW rsW
  exact ⟨h.1 (by decide), h.2⟩

/-- C9: a truncated UDP reply is always written with response code
NOERROR, whatever code the untruncated reply carried. -/
theorem truncated_reply_rcode_success (msgLen : Msg → Nat) (rq : Request) (rs : Msg)
    (h : negotiatedBuffer rq < msgLen rs) :
    (writeMessage true msgLen rq rs).Rcode = rcodeSuccess := by
  unfold writeMessage writeError
  simp [h]

/-- Witness for C9: the concrete reply carried NXDOMAIN and is
written with NOERROR. -/
theorem truncated_reply_rcode_success_witness :
    rsW.Rcode = rcodeNameError ∧
    (writeMessage true (fun _ => 600) rqW rsW).Rcode = rcodeSuccess :=
  ⟨by decide, truncated_reply_rcode_success (fun _ => 600) rqW rsW (by decide)⟩

/-- C1: contrary to the claim, a zone with Retry unset that validates
successfully keeps Retry at zero; the documented default of one hour
is never applied, because the guard at zone.go line 92 tests Refresh
instead of Retry after Refresh has just been defaulted to a non-zero
value. -/
theorem zone_validate_retry_default_not_applied :
    zoneRetryZero.Retry = 0 ∧
    (Zone.Validate zoneRetryZero).1 = none ∧
    (Zone.Validate zoneRetryZero).2.Retry = 0 ∧
    (Zone.Validate zoneRetryZero).2.Retry ≠ timeHour := by
  decide

/-- C2 counterexample: a zone whose AllNameServers list is empty, with
every other field acceptable, validates successfully instead of
returning an error. -/
theorem zone_validate_accepts_empty_ns_list :
    zoneNoNS.AllNameServers = [] ∧ (Zone.Validate zoneNoNS).1 = none := by
  decide

/-- C2 amended: Zone.Validate imposes no lower bound on the number of
name servers; it checks only that every listed name server is fully
qualified, returning an error when one is not. -/
theorem zone_validate_checks_ns_fqdn (z : Zone) (ns : String)
    (h1 : ns ∈ z.AllNameServers) (h2 : IsFqdn ns = false) :
    (Zone.Validate z).1 ≠ none := by
  have hall : z.AllNameServers.all IsFqdn = false := by
    rw [List.all_eq_false]
    exact ⟨ns, h1, by simp [h2]⟩
  unfold Zone.Validate
  split_ifs with ha hb hc <;> simp_all

/-- Witness for the amended C2 at a concrete zone with one
non-qualified name server. -/
theorem zone_validate_checks_ns_fqdn_witness :
    (Zone.Validate zoneBadNS).1 ≠ none :=
  zone_validate_checks_ns_fqdn zoneBadNS "ns1" (by decide) (by decide)

/-- C10: whenever Set.Validate returns an error, the set is left
exactly as it was: no records are reordered and no TTL default is
applied, since every error return precedes both mutations. -/
theorem set_validate_error_leaves_set_unchanged (s : Set) (e : String)
    (h : (Set.Validate s).1 = some e) : (Set.Validate s).2 = s := by
  unfold Set.Validate at h ⊢
  split_ifs at h ⊢
  any_goals rfl
  split at h <;> simp_all

/-- Witness for C10 at a concrete set with no records. -/
theorem set_validate_error_leaves_set_unchanged_witness :
    (Set.Validate setNoRecords).1 = some "missing records" ∧
    (Set.Validate setNoRecords).2 = setNoRecords :=
  ⟨by decide,
    set_validate_error_leaves_set_unchanged setNoRecords "missing records" (by decide)⟩

/-- Helper: when the zone resolver returns no zone for an accepted
in-class query, the handler main stage writes REFUSED with the
authoritative flag cleared. -/
theorem handlerMain_no_zone (zoneHandler : ZoneFn) (lookup : LookupFn) (isUDP : Bool)
    (msgLen : Msg → Nat) (rq : Request) (rs : Msg)
    (hz : zoneHandler (lowerStr rq.question.Name) = .ok none)
    (hc : rq.question.Qclass = classINET)
    (ht : rq.question.Qtype ≠ typeANY) :
    handlerMain zoneHandler lookup isUDP msgLen rq rs =
      some (writeError { rs with Authoritative := false } rcodeRefused) := by
  unfold handlerMain
  have ht' : (rq.question.Qtype == typeANY) = false := by
    simpa using ht
  simp [hc, ht', hz]

/-- C8: for every accepted query for which the zone resolver returns
nil without error, the reply carries response code REFUSED and the
authoritative flag is cleared. -/
theorem handler_refused_when_no_zone (bufferSize : Nat) (zoneHandler : ZoneFn)
    (lookup : LookupFn) (isUDP : Bool) (msgLen : Msg → Nat) (rq : Request)
    (hz : zoneHandler (lowerStr rq.question.Name) = .ok none)
    (hc : rq.question.Qclass = classINET)
    (ht : rq.question.Qtype ≠ typeANY)
    (he : ∀ e, rq.edns = some e → e.version = 0) :
    ∃ msg, Server.handler bufferSize zoneHandler lookup isUDP msgLen rq = some msg ∧
      msg.Rcode = rcodeRefused ∧ msg.Authoritative = false := by
  unfold Server.handler
  cases hedns : rq.edns with
  | some e =>
    have hv := he e hedns
    simp only [hv, ne_eq, not_true_eq_false, reduceIte]
    rw [handlerMain_no_zone zoneHandler lookup isUDP msgLen rq _ hz hc ht]
    exact ⟨_, rfl, rfl, rfl⟩
  | none =>
    rw [handlerMain_no_zone zoneHandler lookup isUDP msgLen rq _ hz hc ht]
    exact ⟨_, rfl, rfl, rfl⟩

/-- Witness for C8 at a concrete query against a resolver that knows
no zone. -/
theorem handler_refused_when_no_zone_witness :
    ∃ msg, Server.handler 1220 (fun _ => .ok none) (fun _ _ _ => .ok ([], false))
        false (fun _ => 0) rqW = some msg ∧
      msg.Rcode = rcodeRefused ∧ msg.Authoritative = false :=
  handler_refused_when_no_zone 1220 (fun _ => .ok none) (fun _ _ _ => .ok ([], false))
    false (fun _ => 0) rqW rfl rfl (by decide) (fun _ h => Option.noConfusion h)

/-- Helper: the handler main stage on an empty lookup result writes
the success code when other sets exist at the name and the name
error code otherwise, in both cases appending the synthesized SOA to
the authority section (shown here over TCP, where no truncation can
interfere). -/
theorem handlerMain_empty_result (z : Zone) (zoneHandler : ZoneFn) (lookup : LookupFn)
    (msgLen : Msg → Nat) (rq : Request) (rs : Msg) (avl : Bool)
    (hz : zoneHandler (lowerStr rq.question.Name) = .ok (some z))
    (hval : (Zone.Validate z).1 = none)
    (hc : rq.question.Qclass = classINET)
    (ht : rq.question.Qtype ≠ typeANY)
    (hsoa : ¬ (rq.question.Qtype = typeSOA ∧
      lowerStr rq.question.Name = (Zone.Validate z).2.Name))
    (hns : ¬ (rq.question.Qtype = typeNS ∧
      lowerStr rq.question.Name = (Zone.Validate z).2.Name))
    (htv : typeValid rq.question.Qtype = true)
    (hlk : lookup (Zone.Validate z).2 (lowerStr rq.question.Name) [rq.question.Qtype] =
      .ok ([], avl)) :
    handlerMain zoneHandler lookup false msgLen rq rs =
      some { rs with Rcode := if avl then rcodeSuccess else rcodeNameError,
                     Ns := rs.Ns ++ [soaRR (Zone.Validate z).2] } := by
  have ht' : (rq.question.Qtype == typeANY) = false := by
    simpa using ht
  rcases hzz : Zone.Validate z with ⟨err, vz⟩
  rw [hzz] at hval hsoa hns hlk
  simp only at hval hsoa hns hlk
  subst hval
  unfold handlerMain
  simp only [hc, ht', hz, hzz, ne_eq, not_true_eq_false, reduceIte]
  simp only [beq_iff_eq, Bool.and_eq_true, decide_eq_true_eq]
  rw [if_neg hsoa, if_neg hns]
  simp only [htv, Bool.not_true, Bool.false_eq_true, if_false, hlk]
  simp [writeErrorWithSOA, writeMessage]
  cases avl <;> simp

/-- C5: for every accepted query whose lookup returns no result sets,
the reply carries NOERROR when the lookup reports other sets at the
name (NODATA) and NXDOMAIN otherwise, and in both cases the
synthesized SOA is placed in the authority section. -/
theorem handler_nodata_vs_nxdomain (bufferSize : Nat) (z : Zone) (zoneHandler : ZoneFn)
    (lookup : LookupFn) (msgLen : Msg → Nat) (rq : Request) (avl : Bool)
    (hz : zoneHandler (lowerStr rq.question.Name) = .ok (some z))
    (hval : (Zone.Validate z).1 = none)
    (hc : rq.question.Qclass = classINET)
    (ht : rq.question.Qtype ≠ typeANY)
    (he : ∀ e, rq.edns = some e → e.version = 0)
    (hsoa : ¬ (rq.question.Qtype = typeSOA ∧
      lowerStr rq.question.Name = (Zone.Validate z).2.Name))
    (hns : ¬ (rq.question.Qtype = typeNS ∧
      lowerStr rq.question.Name = (Zone.Validate z).2.Name))
    (htv : typeValid rq.question.Qtype = true)
    (hlk : lookup (Zone.Validate z).2 (lowerStr rq.question.Name) [rq.question.Qtype] =
      .ok ([], avl)) :
    ∃ msg, Server.handler bufferSize zoneHandler lookup false msgLen rq = some msg ∧
      msg.Rcode = (if avl then rcodeSuccess else rcodeNameError) ∧
      msg.Ns = [soaRR (Zone.Validate z).2] ∧ msg.Answer = [] := by
  unfold Server.handler
  cases hedns : rq.edns with
  | some e =>
    have hv := he e hedns
    simp only [hv, ne_eq, not_true_eq_false, reduceIte]
    rw [handlerMain_empty_result z zoneHandler lookup msgLen rq _ avl hz hval hc ht
      hsoa hns htv hlk]
    exact ⟨_, rfl, rfl, rfl, rfl⟩
  | none =>
    rw [handlerMain_empty_result z zoneHandler lookup msgLen rq _ avl hz hval hc ht
      hsoa hns htv hlk]
    exact ⟨_, rfl, rfl, rfl, rfl⟩

/-- Witness for C5: the same concrete query yields NODATA when the
lookup reports other sets and NXDOMAIN when it does not. -/
theorem handler_nodata_vs_nxdomain_witness :
    (∃ msg, Server.handler 1220 (fun _ => .ok (some zoneRetryZero))
        (fun _ _ _ => .ok ([], true)) false (fun _ => 0) rq5 = some msg ∧
      msg.Rcode = (if true then rcodeSuccess else rcodeNameError) ∧
      msg.Ns = [soaRR (Zone.Validate zoneRetryZero).2] ∧ msg.Answer = []) ∧
    (∃ msg, Server.handler 1220 (fun _ => .ok (some zoneRetryZero))
        (fun _ _ _ => .ok ([], false)) false (fun _ => 0) rq5 = some msg ∧
      msg.Rcode = (if false then rcodeSuccess else rcodeNameError) ∧
      msg.Ns = [soaRR (Zone.Validate zoneRetryZero).2] ∧ msg.Answer = []) :=
  ⟨handler_nodata_vs_nxdomain 1220 zoneRetryZero (fun _ => .ok (some zoneRetryZero))
      (fun _ _ _ => .ok ([], true)) (fun _ => 0) rq5 true rfl (by decide) rfl (by decide)
      (fun _ h => Option.noConfusion h) (by decide) (by decide) (by decide) rfl,
    handler_nodata_vs_nxdomain 1220 zoneRetryZero (fun _ => .ok (some zoneRetryZero))
      (fun _ _ _ => .ok ([], false)) (fun _ => 0) rq5 false rfl (by decide) rfl (by decide)
      (fun _ h => Option.noConfusion h) (by decide) (by decide) (by decide) rfl⟩

/-- Characters compare equal when their code points do. -/
theorem char_toNat_inj {a b : Char} (h : a.toNat = b.toNat) : a = b := by
  apply Char.ext
  unfold Char.toNat at h
  exact UInt32.toNat.inj h

/-- Strings with equal character lists are equal. -/
theorem string_data_inj {s t : String} (h : s.data = t.data) : s = t := by
  cases s
  cases t
  exact congrArg String.mk h

/-- The string comparison never holds in both directions. -/
theorem strLtb_total : ∀ (x y : List Char), strLtb x y = false ∨ strLtb y x = false
  | [], [] => .inl rfl
  | [], _ :: _ => .inr rfl
  | _ :: _, [] => .inl rfl
  | a :: as, b :: bs => by
    rcases Nat.lt_trichotomy a.toNat b.toNat with h | h | h
    · right
      simp [strLtb, h, Nat.lt_asymm h]
    · rcases strLtb_total as bs with ih | ih
      · left
        simp [strLtb, h, ih]
      · right
        simp [strLtb, h, ih]
    · left
      simp [strLtb, h, Nat.lt_asymm h]

/-- Transitivity of the non-strict direction of the string
comparison. -/
theorem strLtb_le_trans : ∀ (x y z : List Char),
    strLtb y x = false → strLtb z y = false → strLtb z x = false
  | [], [], [] => fun _ _ => rfl
  | [], [], _ :: _ => fun _ h2 => h2
  | [], _ :: _, [] => fun _ _ => rfl
  | [], _ :: _, _ :: _ => fun _ _ => rfl
  | _ :: _, [], _ => fun h1 _ => by simp [strLtb] at h1
  | _ :: _, _ :: _, [] => fun _ h2 => by simp [strLtb] at h2
  | a :: as, b :: bs, c :: cs => by
    intro h1 h2
    simp only [strLtb] at h1 h2 ⊢
    by_cases hba : b.toNat < a.toNat
    · simp [hba] at h1
    · by_cases hcb : c.toNat < b.toNat
      · simp [hcb] at h2
      · have hca : ¬ c.toNat < a.toNat := by omega
        rw [if_neg hca]
        by_cases hac : a.toNat < c.toNat
        · simp [hac]
        · rw [if_neg hac]
          rw [if_neg hba, if_neg (by omega : ¬ a.toNat < b.toNat)] at h1
          rw [if_neg hcb, if_neg (by omega : ¬ b.toNat < c.toNat)] at h2
          exact strLtb_le_trans as bs cs h1 h2

/-- Character lists not strictly below one another are equal. -/
theorem strLtb_conn : ∀ (x y : List Char),
    strLtb x y = false → strLtb y x = false → x = y
  | [], [] => fun _ _ => rfl
  | [], _ :: _ => fun h _ => by simp [strLtb] at h
  | _ :: _, [] => fun _ h => by simp [strLtb] at h
  | a :: as, b :: bs => by
    intro h1 h2
    simp only [strLtb] at h1 h2
    by_cases hab : a.toNat < b.toNat
    · simp [hab] at h1
    · by_cases hba : b.toNat < a.toNat
      · simp [hba] at h2
      · have hc : a = b := char_toNat_inj (by omega)
        subst hc
        rw [if_neg hab, if_neg hab] at h1 h2
        rw [strLtb_conn as bs h1 h2]

/-- The record comparison of Set.Validate is total. -/
theorem keyLe_total (t : Ty) (a b : Record) : keyLe t a b ∨ keyLe t b a := by
  unfold keyLe strLt
  exact strLtb_total (sortKey t b).data (sortKey t a).data

/-- The record comparison of Set.Validate is transitive. -/
theorem keyLe_trans (t : Ty) (a b c : Record)
    (h1 : keyLe t a b) (h2 : keyLe t b c) : keyLe t a c := by
  unfold keyLe strLt at h1 h2 ⊢
  exact strLtb_le_trans (sortKey t a).data (sortKey t b).data (sortKey t c).data h1 h2

/-- Records comparing below one another share their sort key. -/
theorem keyLe_antisymm (t : Ty) (a b : Record)
    (h1 : keyLe t a b) (h2 : keyLe t b a) : sortKey t a = sortKey t b := by
  unfold keyLe strLt at h1 h2
  exact string_data_inj (strLtb_conn (sortKey t a).data (sortKey t b).data h2 h1)

/-- The sort of Set.Validate permutes the records. -/
theorem sortRecords_perm (t : Ty) (l : List Record) : (sortRecords t l).Perm l :=
  List.perm_insertionSort (keyLe t) l

/-- The sort of Set.Validate sorts with respect to the record
comparison. -/
theorem sortRecords_sorted (t : Ty) (l : List Record) :
    (sortRecords t l).Sorted (keyLe t) := by
  letI : IsTotal Record (keyLe t) := ⟨keyLe_total t⟩
  letI : IsTrans Record (keyLe t) := ⟨keyLe_trans t⟩
  exact List.sorted_insertionSort (keyLe t) l

/-- The sort of Set.Validate leaves a sorted record list unchanged. -/
theorem sortRecords_of_sorted {t : Ty} {l : List Record} (h : l.Sorted (keyLe t)) :
    sortRecords t l = l :=
  List.Sorted.insertionSort_eq h

/-- Two sorted permutations of a record list with pairwise distinct
sort keys coincide. -/
theorem sorted_perm_distinct_keys_eq (t : Ty) :
    ∀ (l₁ l₂ : List Record), l₁.Perm l₂ →
      l₁.Sorted (keyLe t) → l₂.Sorted (keyLe t) →
      l₁.Pairwise (fun a b => sortKey t a ≠ sortKey t b) → l₁ = l₂
  | [], l₂, hp, _, _, _ => (List.Perm.eq_nil hp.symm).symm
  | a :: t₁, l₂, hp, hs₁, hs₂, hd => by
    cases l₂ with
    | nil => simpa using hp.eq_nil
    | cons b t₂ =>
      have hab : a = b := by
        by_contra hne
        have hbmem : b ∈ a :: t₁ := hp.symm.subset (List.mem_cons_self b t₂)
        have hamem : a ∈ b :: t₂ := hp.subset (List.mem_cons_self a t₁)
        have hb₁ : b ∈ t₁ := by
          rcases List.mem_cons.mp hbmem with h | h
          · exact absurd h.symm hne
          · exact h
        have ha₂ : a ∈ t₂ := by
          rcases List.mem_cons.mp hamem with h | h
          · exact absurd h hne
          · exact h
        have h1 : keyLe t a b := List.rel_of_sorted_cons hs₁ b hb₁
        have h2 : keyLe t b a := List.rel_of_sorted_cons hs₂ a ha₂
        have hkey : sortKey t a = sortKey t b := keyLe_antisymm t a b h1 h2
        exact (List.pairwise_cons.mp hd).1 b hb₁ hkey
      subst hab
      have hp' : t₁.Perm t₂ := hp.cons_inv
      have htl := sorted_perm_distinct_keys_eq t t₁ t₂ hp' hs₁.of_cons hs₂.of_cons
        (List.pairwise_cons.mp hd).2
      rw [htl]

/-- The record-validation loop returns no error exactly when every
record validates. -/
theorem firstRecordError_eq_none {t : Ty} {l : List Record} :
    firstRecordError t l = none ↔ ∀ r ∈ l, r.Validate t = none := by
  induction l with
  | nil => simp [firstRecordError]
  | cons r rest ih =>
    simp only [firstRecordError]
    cases hv : r.Validate t with
    | some e => simp [hv]
    | none => simp [hv, ih]

/-- Set.Validate on a set passing every check sorts the records and
defaults the TTL. -/
theorem set_validate_none (s : Set)
    (h1 : IsDomain s.Name true = true) (h2 : typeValid s.ty = true)
    (h3 : s.Records.isEmpty = false)
    (h4 : (s.ty == typeCNAME && decide (s.Records.length > 1)) = false)
    (h5 : firstRecordError s.ty s.Records = none) :
    Set.Validate s = (none,
      { s with Records := sortRecords s.ty s.Records,
               TTL := if s.TTL == 0 then 5 * timeMinute else s.TTL }) := by
  unfold Set.Validate
  rw [if_neg (by simp [h1]), if_neg (by simp [h2]), if_neg (by simp [h3]),
    if_neg (by simp [h4]), h5]
  by_cases httl : s.TTL == 0 <;> simp [httl]

/-- A set on which Set.Validate succeeds passes every check. -/
theorem set_validate_none_inv (s : Set) (h : (Set.Validate s).1 = none) :
    IsDomain s.Name true = true ∧ typeValid s.ty = true ∧ s.Records.isEmpty = false ∧
    (s.ty == typeCNAME && decide (s.Records.length > 1)) = false ∧
    firstRecordError s.ty s.Records = none := by
  unfold Set.Validate at h
  split_ifs at h with h1 h2 h3 h4
  refine ⟨by simpa using h1, by simpa using h2, by simpa using h3,
    by simpa using h4, ?_⟩
  cases hfe : firstRecordError s.ty s.Records with
  | some e =>
    rw [hfe] at h
    simp at h
  | none => rfl

/-- C6 counterexample: two validating permutations of the same TXT
records, two of which share their sort key, are left in different
orders by Set.Validate, so the canonical order is not determined
solely by the set contents. -/
theorem set_validate_order_insertion_dependent :
    txtSetA.Name = txtSetB.Name ∧ txtSetA.ty = txtSetB.ty ∧ txtSetA.TTL = txtSetB.TTL ∧
    txtSetA.Records.Perm txtSetB.Records ∧
    (Set.Validate txtSetA).1 = none ∧ (Set.Validate txtSetB).1 = none ∧
    (Set.Validate txtSetA).2.Records ≠ (Set.Validate txtSetB).2.Records := by
  decide

/-- Helper: re-validating any successfully validated set, with or
without tied sort keys, changes nothing: the sorted records are
already sorted and the defaulted TTL is non-zero. -/
theorem set_validate_idempotent (s : Set) (hv : (Set.Validate s).1 = none) :
    Set.Validate (Set.Validate s).2 = (none, (Set.Validate s).2) := by
  obtain ⟨n₁, t₁, r₁, ttl₁⟩ := s
  obtain ⟨c1, c2, c3, c4, c5⟩ := set_validate_none_inv _ hv
  simp only at c1 c2 c3 c4 c5
  have e₁ := set_validate_none ⟨n₁, t₁, r₁, ttl₁⟩ c1 c2 c3 c4 c5
  rw [e₁]
  have hperm₂ : (sortRecords t₁ r₁).Perm r₁ := sortRecords_perm t₁ r₁
  have d3 : (sortRecords t₁ r₁).isEmpty = false := by
    cases hr : sortRecords t₁ r₁ with
    | nil =>
      rw [hr] at hperm₂
      rw [hperm₂.symm.eq_nil] at c3
      simp at c3
    | cons x xs => rfl
  have d4 : (t₁ == typeCNAME && decide ((sortRecords t₁ r₁).length > 1)) = false := by
    rw [hperm₂.length_eq]
    exact c4
  have d5 : firstRecordError t₁ (sortRecords t₁ r₁) = none := by
    rw [firstRecordError_eq_none] at c5 ⊢
    intro r hr
    exact c5 r (hperm₂.mem_iff.mp hr)
  have e₃ := set_validate_none
    ⟨n₁, t₁, sortRecords t₁ r₁, if ttl₁ == 0 then 5 * timeMinute else ttl₁⟩ c1 c2 d3 d4 d5
  rw [e₃]
  have hsort : sortRecords t₁ (sortRecords t₁ r₁) = sortRecords t₁ r₁ :=
    sortRecords_of_sorted (sortRecords_sorted t₁ r₁)
  have httl0 : ((if ttl₁ == 0 then 5 * timeMinute else ttl₁) == 0) = false := by
    by_cases h0 : ttl₁ == 0
    · simp only [h0, if_true]
      decide
    · simp only [h0, if_false]
      simpa using h0
  simp [hsort, httl0]
  intro h
  exact absurd h (by simpa using httl0)

/-- C6 amended: when the records of a validating set have pairwise
distinct sort keys (TXT by first data string, MX by zero-padded
priority then address, all other types by address), every
permutation of those records validates to the same canonical order;
and re-validating an already validated set never changes it, even
with tied keys (the idempotence part holds for every validated set,
with no distinctness hypothesis). -/
theorem set_validate_canonical_order :
    (∀ s₁ s₂ : Set, s₁.Name = s₂.Name → s₁.ty = s₂.ty → s₁.TTL = s₂.TTL →
      s₁.Records.Perm s₂.Records →
      s₁.Records.Pairwise (fun a b => sortKey s₁.ty a ≠ sortKey s₁.ty b) →
      (Set.Validate s₁).1 = none →
      (Set.Validate s₂).1 = none ∧ (Set.Validate s₂).2 = (Set.Validate s₁).2) ∧
    (∀ s : Set, (Set.Validate s).1 = none →
      Set.Validate (Set.Validate s).2 = (none, (Set.Validate s).2)) := by
  refine ⟨?_, set_validate_idempotent⟩
  intro s₁ s₂ hn hty httl hp hd hv
  obtain ⟨n₁, t₁, r₁, ttl₁⟩ := s₁
  obtain ⟨n₂, t₂, r₂, ttl₂⟩ := s₂
  simp only at hn hty httl hp hd hv
  subst hn
  subst hty
  subst httl
  obtain ⟨c1, c2, c3, c4, c5⟩ := set_validate_none_inv _ hv
  simp only at c1 c2 c3 c4 c5
  have hlen : r₁.length = r₂.length := hp.length_eq
  have c3' : r₂.isEmpty = false := by
    cases hr₂ : r₂ with
    | nil =>
      rw [hr₂] at hp
      rw [hp.eq_nil] at c3
      simp at c3
    | cons x xs => rfl
  have c4' : (t₁ == typeCNAME && decide (r₂.length > 1)) = false := by
    rw [← hlen]
    exact c4
  have c5' : firstRecordError t₁ r₂ = none := by
    rw [firstRecordError_eq_none] at c5 ⊢
    intro r hr
    exact c5 r (hp.mem_iff.mpr hr)
  have hs : sortRecords t₁ r₁ = sortRecords t₁ r₂ := by
    apply sorted_perm_distinct_keys_eq t₁
    · exact (sortRecords_perm t₁ r₁).trans (hp.trans (sortRecords_perm t₁ r₂).symm)
    · exact sortRecords_sorted t₁ r₁
    · exact sortRecords_sorted t₁ r₂
    · exact (((sortRecords_perm t₁ r₁).pairwise_iff fun hxy e => hxy e.symm).mpr hd)
  have e₁ := set_validate_none ⟨n₁, t₁, r₁, ttl₁⟩ c1 c2 c3 c4 c5
  have e₂ := set_validate_none ⟨n₁, t₁, r₂, ttl₁⟩ c1 c2 c3' c4' c5'
  refine ⟨by rw [e₂], ?_⟩
  rw [e₁, e₂]
  simp [hs]

/-- Witness for the amended C6: the permutation part at two concrete
permutations of a distinct-key TXT set, and the idempotence part at
a TXT set whose two records share their sort key. -/
theorem set_validate_canonical_order_witness :
    ((Set.Validate txtSetD).1 = none ∧
      (Set.Validate txtSetD).2 = (Set.Validate txtSetC).2) ∧
    Set.Validate (Set.Validate txtSetA).2 = (none, (Set.Validate txtSetA).2) :=
  ⟨set_validate_canonical_order.1 txtSetC txtSetD rfl rfl rfl (by decide) (by decide)
      (by decide),
    set_validate_canonical_order.2 txtSetA (by decide)⟩

/-- Every record produced by the set conversion carries a TTL at
least the zone minimum TTL. -/
theorem convert_ttl {s : Set} {zone : Zone} {name : String} {rr : RR}
    (h : rr ∈ Set.convert s zone name) : durationToTime zone.MinTTL ≤ rr.Ttl := by
  unfold Set.convert at h
  simp only [List.mem_filterMap] at h
  obtain ⟨r, _, hr⟩ := h
  split_ifs at hr <;>
    simp only [Option.some.injEq, reduceCtorEq] at hr <;>
    rw [← hr] <;>
    exact Nat.le_max_right _ _

/-- Every synthesized NS record carries the NS TTL of the zone. -/
theorem nsRRs_ttl {zone : Zone} {name : String} {rr : RR} (h : rr ∈ nsRRs zone name) :
    rr.Ttl = durationToTime zone.NSTTL := by
  unfold nsRRs at h
  simp only [List.mem_map] at h
  obtain ⟨n, _, hn⟩ := h
  rw [← hn]

/-- Every record converted from a lookup result is clamped from
below by the zone minimum TTL. -/
theorem mem_flat_converts {zone : Zone} {qname : String} {result : List LookupResult}
    {rr : RR}
    (h : rr ∈ (result.map fun res =>
      Set.convert res.Set zone (transferCase qname res.Name)).flatten) :
    durationToTime zone.MinTTL ≤ rr.Ttl := by
  rw [List.mem_flatten] at h
  obtain ⟨l, hl, hrl⟩ := h
  rw [List.mem_map] at hl
  obtain ⟨res, _, rfl⟩ := hl
  exact convert_ttl hrl

/-- The glue loop never touches the answer and authority sections,
and every record it appends to the additional section is clamped
from below by the zone minimum TTL. -/
theorem addGlue_spec (lookup : LookupFn) (zone : Zone) (qname : String) :
    ∀ (ans : List RR) (rs : Msg),
      (addGlue lookup zone qname ans rs).1.Answer = rs.Answer ∧
      (addGlue lookup zone qname ans rs).1.Ns = rs.Ns ∧
      (∀ rr ∈ (addGlue lookup zone qname ans rs).1.Extra,
        rr ∈ rs.Extra ∨ durationToTime zone.MinTTL ≤ rr.Ttl)
  | [], rs => ⟨rfl, rfl, fun rr hrr => .inl hrr⟩
  | r :: rest, rs => by
    unfold addGlue
    cases hrd : r.Rdata with
    | mx p target =>
      dsimp only
      by_cases hin : InZone zone.Name target
      · rw [if_pos hin]
        cases hlk : lookup zone target [typeA, typeAAAA] with
        | error e => exact ⟨rfl, rfl, fun rr hrr => .inl hrr⟩
        | ok res =>
          obtain ⟨result, avl⟩ := res
          have ih := addGlue_spec lookup zone qname rest
            { rs with Extra := rs.Extra ++ (result.map fun r2 =>
                Set.convert r2.Set zone (transferCase qname r2.Name)).flatten }
          refine ⟨ih.1, ih.2.1, fun rr hrr => ?_⟩
          rcases ih.2.2 rr hrr with hmem | hle
          · simp only [List.mem_append] at hmem
            rcases hmem with hmem | hmem
            · exact .inl hmem
            · exact .inr (mem_flat_converts hmem)
          · exact .inr hle
      · rw [if_neg hin]
        exact addGlue_spec lookup zone qname rest rs
    | a addr => exact addGlue_spec lookup zone qname rest rs
    | aaaa addr => exact addGlue_spec lookup zone qname rest rs
    | cname t2 => exact addGlue_spec lookup zone qname rest rs
    | ptr t2 => exact addGlue_spec lookup zone qname rest rs
    | txt d => exact addGlue_spec lookup zone qname rest rs
    | ns t2 => exact addGlue_spec lookup zone qname rest rs
    | soa a2 b2 c2 d2 e2 f2 g2 => exact addGlue_spec lookup zone qname rest rs

/-- A property of every record of a message survives writing: the
write either keeps the sections or empties them. -/
theorem writeMessage_sections {P : RR → Prop} (isUDP : Bool) (msgLen : Msg → Nat)
    (rq : Request) (rs : Msg)
    (h : ∀ rr ∈ rs.Answer ++ rs.Ns ++ rs.Extra, P rr) :
    ∀ rr ∈ (writeMessage isUDP msgLen rq rs).Answer ++
      (writeMessage isUDP msgLen rq rs).Ns ++ (writeMessage isUDP msgLen rq rs).Extra,
      P rr := by
  unfold writeMessage writeError
  split_ifs with hc
  · intro rr hrr
    simp at hrr
  · exact h

/-- Helper: every record emitted by the handler main stage is either
clamped from below by the minimum TTL of the validated zone or
carries its NS or SOA TTL. -/
theorem handlerMain_ttl_bounds (z : Zone) (lookup : LookupFn) (isUDP : Bool)
    (msgLen : Msg → Nat) (rq : Request) (rs : Msg) (msg : Msg)
    (hans : rs.Answer = []) (hns : rs.Ns = []) (hex : rs.Extra = [])
    (h : handlerMain (fun _ => .ok (some z)) lookup isUDP msgLen rq rs = some msg) :
    ∀ rr ∈ msg.Answer ++ msg.Ns ++ msg.Extra,
      durationToTime (Zone.Validate z).2.MinTTL ≤ rr.Ttl ∨
      rr.Ttl = durationToTime (Zone.Validate z).2.NSTTL ∨
      rr.Ttl = durationToTime (Zone.Validate z).2.SOATTL := by
  rcases hzz : Zone.Validate z with ⟨err, vz⟩
  simp only
  unfold handlerMain at h
  dsimp only at h
  rw [hzz] at h
  split at h
  · exact absurd h (by simp)
  · split at h
    · rw [← Option.some.inj h]
      intro rr hrr
      simp [writeError, hans, hns, hex] at hrr
    · cases err with
      | some e =>
        dsimp only at h
        rw [← Option.some.inj h]
        intro rr hrr
        simp [writeError, hans, hns, hex] at hrr
      | none =>
        dsimp only at h
        split at h
        · -- SOA apex
          rw [← Option.some.inj h]
          unfold writeSOAResponse
          apply writeMessage_sections
          intro rr hrr
          simp only [hans, hns, hex, List.nil_append, List.append_nil,
            List.mem_append] at hrr
          rcases hrr with hrr | hrr
          · simp only [List.mem_singleton] at hrr
            subst hrr
            exact .inr (.inr rfl)
          · exact .inr (.inl (nsRRs_ttl hrr))
        · split at h
          · -- NS apex
            rw [← Option.some.inj h]
            unfold writeNSResponse
            apply writeMessage_sections
            intro rr hrr
            simp only [hans, hns, hex, List.nil_append, List.append_nil,
              List.mem_append] at hrr
            exact .inr (.inl (nsRRs_ttl hrr))
          · split at h
            · -- unsupported type
              rw [← Option.some.inj h]
              unfold writeErrorWithSOA
              apply writeMessage_sections
              intro rr hrr
              simp only [hans, hns, hex, List.nil_append, List.append_nil,
                List.mem_append, List.mem_singleton] at hrr
              subst hrr
              exact .inr (.inr rfl)
            · -- lookup
              cases hlk : lookup vz (lowerStr rq.question.Name) [rq.question.Qtype] with
              | error e =>
                rw [hlk] at h
                dsimp only at h
                rw [← Option.some.inj h]
                intro rr hrr
                simp [writeError, hans, hns, hex] at hrr
              | ok res =>
                obtain ⟨result, avl⟩ := res
                rw [hlk] at h
                dsimp only at h
                split at h
                · -- empty result
                  split at h <;>
                    (rw [← Option.some.inj h]
                     unfold writeErrorWithSOA
                     apply writeMessage_sections
                     intro rr hrr
                     simp only [hans, hns, hex, List.nil_append, List.append_nil,
                       List.mem_append, List.mem_singleton] at hrr
                     subst hrr
                     exact .inr (.inr rfl))
                · -- results present
                  rcases hglue : addGlue lookup vz rq.question.Name
                    (rs.Answer ++ (result.map fun res =>
                      res.Set.convert vz (transferCase rq.question.Name res.Name)).flatten)
                    { rs with Answer := rs.Answer ++ (result.map fun res =>
                      res.Set.convert vz (transferCase rq.question.Name res.Name)).flatten }
                    with ⟨rs2, bad⟩
                  have spec := addGlue_spec lookup vz rq.question.Name
                    (rs.Answer ++ (result.map fun res =>
                      res.Set.convert vz (transferCase rq.question.Name res.Name)).flatten)
                    { rs with Answer := rs.Answer ++ (result.map fun res =>
                      res.Set.convert vz (transferCase rq.question.Name res.Name)).flatten }
                  rw [hglue] at spec h
                  simp only at spec
                  have hAns : ∀ rr ∈ rs2.Answer, durationToTime vz.MinTTL ≤ rr.Ttl := by
                    intro rr hrr
                    rw [spec.1, hans, List.nil_append] at hrr
                    exact mem_flat_converts hrr
                  have hNs2 : rs2.Ns = [] := by
                    rw [spec.2.1, hns]
                  have hEx : ∀ rr ∈ rs2.Extra, durationToTime vz.MinTTL ≤ rr.Ttl := by
                    intro rr hrr
                    rcases spec.2.2 rr hrr with hmem | hle
                    · rw [hex] at hmem
                      simp at hmem
                    · exact hle
                  cases bad with
                  | true =>
                    dsimp only at h
                    rw [← Option.some.inj h]
                    intro rr hrr
                    simp only [writeError, List.mem_append] at hrr
                    rcases hrr with (hrr | hrr) | hrr
                    · exact .inl (hAns rr hrr)
                    · rw [hNs2] at hrr
                      simp at hrr
                    · exact .inl (hEx rr hrr)
                  | false =>
                    dsimp only at h
                    rw [← Option.some.inj h]
                    apply writeMessage_sections
                    intro rr hrr
                    simp only [List.mem_append] at hrr
                    rcases hrr with (hrr | hrr) | hrr
                    · exact .inl (hAns rr hrr)
                    · rw [hNs2] at hrr
                      simp only [List.not_mem_nil, false_or] at hrr
                      exact .inr (.inl (nsRRs_ttl hrr))
                    · exact .inl (hEx rr hrr)

/-- C3 amended: every record of every reply assembled by the handler
either has TTL at least the validated zone minimum TTL (all records
converted from result sets, clamped to max(set.TTL, zone.MinTTL)),
or is a synthesized NS record carrying the zone NS TTL, or a
synthesized SOA record carrying the zone SOA TTL; the two
synthesized TTLs are not clamped to the minimum TTL. -/
theorem handler_ttl_bounds (bufferSize : Nat) (z : Zone) (lookup : LookupFn)
    (isUDP : Bool) (msgLen : Msg → Nat) (rq : Request) (msg : Msg)
    (h : Server.handler bufferSize (fun _ => .ok (some z)) lookup isUDP msgLen rq =
      some msg) :
    ∀ rr ∈ msg.Answer ++ msg.Ns ++ msg.Extra,
      durationToTime (Zone.Validate z).2.MinTTL ≤ rr.Ttl ∨
      rr.Ttl = durationToTime (Zone.Validate z).2.NSTTL ∨
      rr.Ttl = durationToTime (Zone.Validate z).2.SOATTL := by
  unfold Server.handler at h
  rcases hedns : rq.edns with _ | e
  · rw [hedns] at h
    dsimp only at h
    exact handlerMain_ttl_bounds z lookup isUDP msgLen rq initialReply msg rfl rfl rfl h
  · rw [hedns] at h
    dsimp only at h
    split at h
    · rw [← Option.some.inj h]
      intro rr hrr
      simp [writeError, initialReply] at hrr
    · exact handlerMain_ttl_bounds z lookup isUDP msgLen rq
        { initialReply with ednsUdpSize := some bufferSize } msg rfl rfl rfl h

/-- C3 counterexample: a zone with NSTTL of one minute and MinTTL of
five minutes assembles a reply whose authority NS record carries
TTL 60, strictly below the 300-second minimum, so not every emitted
non-SOA record reaches zone.MinTTL, nor does it equal
max(set.TTL, zone.MinTTL). -/
theorem handler_ns_ttl_below_min :
    (Server.handler 1220 (fun _ => .ok (some zoneLowNSTTL)) lookupW false
        (fun _ => 0) rq5).map Msg.Ns =
      some [ { Name := "example.com.", Ttl := 60, Rdata := .ns "ns1.example.com." } ] ∧
    durationToTime (Zone.Validate zoneLowNSTTL).2.MinTTL = 300 ∧ (60 : Nat) < 300 := by
  decide

/-- Witness for the amended C3 at the NS record of the concrete
reply msgW. -/
theorem handler_ttl_bounds_witness :
    durationToTime (Zone.Validate zoneLowNSTTL).2.MinTTL ≤ nsRecW.Ttl ∨
    nsRecW.Ttl = durationToTime (Zone.Validate zoneLowNSTTL).2.NSTTL ∨
    nsRecW.Ttl = durationToTime (Zone.Validate zoneLowNSTTL).2.SOATTL :=
  handler_ttl_bounds 1220 zoneLowNSTTL lookupW false (fun _ => 0) rq5 msgW (by decide)
    nsRecW (by decide)

end NewDNS
